import Mathlib

set_option maxRecDepth 100000

deriving instance DecidableEq for Except

/-!
Verification of the durability and state-management core of the `rust_db`
key-value store against its natural-language specification.

The development is a shallow embedding of the Rust sources:

* `src/wal/entry.rs`   — the WAL record codec (`WalEntry`, `serialize`,
  `deserialize`, CRC32 framing);
* `src/wal/manager.rs` — the replay scan loop of `WalManager::replay_from`;
* `src/storage/types.rs`, `src/storage/shard.rs`, `src/storage/engine.rs` —
  `KvEntry`, the sharded map, and the engine operations
  (`get`/`set`/`del`/`apply_wal_entry`/`snapshot`/`load_from_snapshot`);
* `src/storage/ttl.rs` — the TTL event queue and the background sweep;
* `src/storage/snapshot.rs` — the snapshot load path;
* `src/api/rest/handler.rs` — the client-facing `set_handler`.

Conventions of the embedding:

* Rust `u64`/`u32`/`u8` values are `Nat` with explicit `% 2 ^ 64` (resp.
  `2 ^ 32`, `256`) where wrap-around matters.
* Rust `String` keys are modelled as their UTF-8 byte sequences
  (`List Nat`, each element `< 256`); byte buffers (`Vec<u8>`, `&[u8]`)
  are likewise `List Nat`.
* Wall-clock reads (`SystemTime::now()`) are passed in explicitly as a
  `now : Nat` argument at every point where the Rust code reads the clock.
* `HashMap<String, KvEntry>` is modelled as an association list in which an
  insert places the new binding in front and removes any previous binding
  for the same key, and a remove drops the binding; this is the standard
  extensional model of a hash map.
* Fallible Rust functions returning `Result` become `Except`; a Rust
  `panic!`/`assert!` is modelled as `Option.none` (no error value is
  returned to the caller).
-/

/-! ## Byte-level utilities -/

/-- Big-endian byte list (most significant first) of the low `w` bytes of
`x`; this is what `bytes::BufMut::put_u64` / `put_u32` / `put_u8` write. -/
def beBytes : Nat → Nat → List Nat
  | 0, _ => []
  | w + 1, x => (x / 2 ^ (8 * w)) % 256 :: beBytes w x

/-- Value of a byte list read little-endian (least significant first);
this is what `u64::from_le_bytes` / `u32::from_le_bytes` compute. -/
def leNat (bs : List Nat) : Nat :=
  bs.foldr (fun b acc => b + 256 * acc) 0

/-- Little-endian byte list of the low `w` bytes of `x`.  Used only to
construct concrete test buffers in the form `deserialize` expects. -/
def leBytes : Nat → Nat → List Nat
  | 0, _ => []
  | w + 1, x => x % 256 :: leBytes w (x / 256)

/-- One shift-xor step of the reflected CRC-32 (IEEE) computation used by
the `crc32fast` crate. -/
def crc32Step (c : Nat) : Nat :=
  if c % 2 = 1 then (c / 2) ^^^ 0xEDB88320 else c / 2

/-- Iterate `crc32Step` eight times (one input byte). -/
def crc32Rounds : Nat → Nat → Nat
  | 0, c => c
  | r + 1, c => crc32Rounds r (crc32Step c)

/-- Fold one byte into a CRC-32 state. -/
def crc32Byte (c b : Nat) : Nat :=
  crc32Rounds 8 (c ^^^ b)

/-- CRC-32 (IEEE, reflected, as computed by `crc32fast::Hasher`) of a byte
list. -/
def crc32 (bs : List Nat) : Nat :=
  (bs.foldl crc32Byte 0xFFFFFFFF) ^^^ 0xFFFFFFFF

/-! ## WAL record codec — `src/wal/entry.rs` -/

/-- `wal::error::WalError` (src/wal/error.rs).  The `io` payload is the
rendered message of the underlying `std::io::Error`. -/
inductive WalError where
  | io (msg : String)
  | invalidEntry (offset : Nat) (reason : String)
  | checksumMismatch (offset : Nat) (expected : Nat) (got : Nat)
  | fileNotFound (name : String)
  | replayError (offset : Nat) (reason : String)
  deriving DecidableEq

/-- The `Display` rendering of `WalError` generated by the `thiserror`
attributes in src/wal/error.rs; `replay_from` stores `e.to_string()` of the
inner error in `ReplayError.reason`. -/
def WalError.display : WalError → String
  | .io m => "I/O error: " ++ m
  | .invalidEntry o r => "Invalid WAL entry at offset " ++ toString o ++ ": " ++ r
  | .checksumMismatch o e g =>
      "Checksum mismatch at offset " ++ toString o ++ ": expected " ++ toString e
        ++ ", got " ++ toString g
  | .fileNotFound n => "WAL file not found: " ++ n
  | .replayError o r => "Replay stopped at offset " ++ toString o ++ ": " ++ r

/-- `wal::entry::OpType`. -/
inductive OpType where
  | set
  | del
  | incr
  | cas
  deriving DecidableEq

/-- `OpType::as_u8` (the `#[repr(u8)]` discriminant). -/
def OpType.as_u8 : OpType → Nat
  | .set => 0
  | .del => 1
  | .incr => 2
  | .cas => 3

/-- `OpType::from_u8`. -/
def OpType.from_u8 (v : Nat) : Option OpType :=
  match v with
  | 0 => some .set
  | 1 => some .del
  | 2 => some .incr
  | 3 => some .cas
  | _ => none

/-- `wal::entry::WalEntry`.  `key` holds the UTF-8 bytes of the Rust
`String`; `ttl` is `Option<u64>` where the wire encodes `None` as `0`. -/
structure WalEntry where
  timestamp : Nat
  key : List Nat
  value : List Nat
  version : Nat
  ttl : Option Nat
  op_type : OpType
  deriving DecidableEq

/-- `WalEntry::serialize` (src/wal/entry.rs:41-65).  `BytesMut::put_u64`,
`put_u32` and `put_u8` write big-endian, so every multi-byte integer field
is emitted most-significant-byte first; the CRC-32 is computed over the
whole preceding buffer and appended (also big-endian). -/
def WalEntry.serialize (e : WalEntry) : List Nat :=
  let body :=
    beBytes 8 e.timestamp ++ beBytes 8 e.version ++ beBytes 8 (e.ttl.getD 0)
      ++ [e.op_type.as_u8 % 256] ++ beBytes 8 e.key.length
      ++ beBytes 8 e.value.length ++ e.key ++ e.value
  body ++ beBytes 4 (crc32 body)

/-- `wal::entry::read_u64`: bounds check against the buffer length, then a
little-endian read of 8 bytes; returns the value and the advanced offset
(the Rust version advances `*offset`). -/
def read_u64 (data : List Nat) (offset : Nat) : Except WalError (Nat × Nat) :=
  if offset + 8 > data.length then
    .error (.invalidEntry offset "unexpected EOF")
  else
    .ok (leNat ((data.drop offset).take 8), offset + 8)

/-- `wal::entry::read_u32`: little-endian read of 4 bytes. -/
def read_u32 (data : List Nat) (offset : Nat) : Except WalError (Nat × Nat) :=
  if offset + 4 > data.length then
    .error (.invalidEntry offset "unexpected EOF")
  else
    .ok (leNat ((data.drop offset).take 4), offset + 4)

/-- `wal::entry::read_u8`. -/
def read_u8 (data : List Nat) (offset : Nat) : Except WalError (Nat × Nat) :=
  if offset ≥ data.length then
    .error (.invalidEntry offset "unexpected EOF")
  else
    .ok (data.getD offset 0, offset + 1)

/-- Whether `b` is a UTF-8 continuation byte (`0x80..=0xBF`). -/
def utf8Cont (b : Nat) : Bool :=
  decide (0x80 ≤ b ∧ b ≤ 0xBF)

/-- UTF-8 validity of a byte sequence, as checked by
`std::str::from_utf8` (rejecting overlong forms, surrogates and code
points above `U+10FFFF`). -/
def utf8Valid : List Nat → Bool
  | [] => true
  | b :: rest =>
    if b ≤ 0x7F then utf8Valid rest
    else if 0xC2 ≤ b ∧ b ≤ 0xDF then
      match rest with
      | c1 :: r => utf8Cont c1 && utf8Valid r
      | [] => false
    else if b = 0xE0 then
      match rest with
      | c1 :: c2 :: r => decide (0xA0 ≤ c1 ∧ c1 ≤ 0xBF) && utf8Cont c2 && utf8Valid r
      | _ => false
    else if (0xE1 ≤ b ∧ b ≤ 0xEC) ∨ (0xEE ≤ b ∧ b ≤ 0xEF) then
      match rest with
      | c1 :: c2 :: r => utf8Cont c1 && utf8Cont c2 && utf8Valid r
      | _ => false
    else if b = 0xED then
      match rest with
      | c1 :: c2 :: r => decide (0x80 ≤ c1 ∧ c1 ≤ 0x9F) && utf8Cont c2 && utf8Valid r
      | _ => false
    else if b = 0xF0 then
      match rest with
      | c1 :: c2 :: c3 :: r =>
          decide (0x90 ≤ c1 ∧ c1 ≤ 0xBF) && utf8Cont c2 && utf8Cont c3 && utf8Valid r
      | _ => false
    else if 0xF1 ≤ b ∧ b ≤ 0xF3 then
      match rest with
      | c1 :: c2 :: c3 :: r => utf8Cont c1 && utf8Cont c2 && utf8Cont c3 && utf8Valid r
      | _ => false
    else if b = 0xF4 then
      match rest with
      | c1 :: c2 :: c3 :: r =>
          decide (0x80 ≤ c1 ∧ c1 ≤ 0x8F) && utf8Cont c2 && utf8Cont c3 && utf8Valid r
      | _ => false
    else false

/-- `WalEntry::deserialize` (src/wal/entry.rs:67-135).  Mirrors the Rust
control flow exactly: initial 37-byte minimum check, six header reads via
the `read_*` helpers (which read little-endian), completeness check for
key, value and checksum, UTF-8 validation of the key bytes, checksum
verification over everything before the stored checksum, TTL decoding
(`0` means `None`) and op-code decoding.  Returns the entry and the number
of consumed bytes. -/
def WalEntry.deserialize (data : List Nat) : Except WalError (WalEntry × Nat) :=
  if data.length < 37 then
    .error (.invalidEntry 0 "too short")
  else
    match read_u64 data 0 with
    | .error e => .error e
    | .ok (timestamp, off1) =>
      match read_u64 data off1 with
      | .error e => .error e
      | .ok (version, off2) =>
        match read_u64 data off2 with
        | .error e => .error e
        | .ok (ttl_raw, off3) =>
          match read_u8 data off3 with
          | .error e => .error e
          | .ok (op_byte, off4) =>
            match read_u64 data off4 with
            | .error e => .error e
            | .ok (key_len, off5) =>
              match read_u64 data off5 with
              | .error e => .error e
              | .ok (value_len, off6) =>
                if data.length < off6 + key_len + value_len + 4 then
                  .error (.invalidEntry 0 "incomplete data")
                else
                  if utf8Valid ((data.drop off6).take key_len) = false then
                    .error (.invalidEntry 0 "invalid UTF-8 key")
                  else
                    match read_u32 data (off6 + key_len + value_len) with
                    | .error e => .error e
                    | .ok (checksum_stored, off9) =>
                      if checksum_stored ≠ crc32 (data.take (off9 - 4)) then
                        .error (.checksumMismatch 0 (crc32 (data.take (off9 - 4)))
                          checksum_stored)
                      else
                        match OpType.from_u8 op_byte with
                        | none =>
                            .error (.invalidEntry 0
                              ("unknown op type: " ++ toString op_byte))
                        | some op =>
                            .ok ({ timestamp := timestamp,
                                   key := (data.drop off6).take key_len,
                                   value := (data.drop (off6 + key_len)).take value_len,
                                   version := version,
                                   ttl := if ttl_raw = 0 then none else some ttl_raw,
                                   op_type := op }, off9)

/-- Successful `read_u64` advances the offset by 8 and stays in bounds. -/
theorem read_u64_ok {data : List Nat} {off v o' : Nat}
    (h : read_u64 data off = .ok (v, o')) : o' = off + 8 ∧ off + 8 ≤ data.length := by
  unfold read_u64 at h
  split at h
  · exact Except.noConfusion h
  · rw [Except.ok.injEq, Prod.mk.injEq] at h
    exact ⟨h.2.symm, by omega⟩

/-- Successful `read_u32` advances the offset by 4 and stays in bounds. -/
theorem read_u32_ok {data : List Nat} {off v o' : Nat}
    (h : read_u32 data off = .ok (v, o')) : o' = off + 4 ∧ off + 4 ≤ data.length := by
  unfold read_u32 at h
  split at h
  · exact Except.noConfusion h
  · rw [Except.ok.injEq, Prod.mk.injEq] at h
    exact ⟨h.2.symm, by omega⟩

/-- Successful `read_u8` advances the offset by 1 and stays in bounds. -/
theorem read_u8_ok {data : List Nat} {off v o' : Nat}
    (h : read_u8 data off = .ok (v, o')) : o' = off + 1 ∧ off + 1 ≤ data.length := by
  unfold read_u8 at h
  split at h
  · exact Except.noConfusion h
  · rw [Except.ok.injEq, Prod.mk.injEq] at h
    exact ⟨h.2.symm, by omega⟩

/-- A successful `deserialize` consumes at least one byte and no more than
the buffer holds (it consumes exactly `45 + key_len + value_len`). -/
theorem deserialize_ok_bounds (data : List Nat) (e : WalEntry) (n : Nat)
    (h : WalEntry.deserialize data = .ok (e, n)) : 1 ≤ n ∧ n ≤ data.length := by
  unfold WalEntry.deserialize at h
  split at h
  · exact Except.noConfusion h
  split at h
  · exact Except.noConfusion h
  rename_i v1 o1 heq1
  obtain ⟨ho1, hb1⟩ := read_u64_ok heq1
  subst ho1
  split at h
  · exact Except.noConfusion h
  rename_i v2 o2 heq2
  obtain ⟨ho2, hb2⟩ := read_u64_ok heq2
  subst ho2
  split at h
  · exact Except.noConfusion h
  rename_i v3 o3 heq3
  obtain ⟨ho3, hb3⟩ := read_u64_ok heq3
  subst ho3
  split at h
  · exact Except.noConfusion h
  rename_i v4 o4 heq4
  obtain ⟨ho4, hb4⟩ := read_u8_ok heq4
  subst ho4
  split at h
  · exact Except.noConfusion h
  rename_i v5 o5 heq5
  obtain ⟨ho5, hb5⟩ := read_u64_ok heq5
  subst ho5
  split at h
  · exact Except.noConfusion h
  rename_i v6 o6 heq6
  obtain ⟨ho6, hb6⟩ := read_u64_ok heq6
  subst ho6
  split at h
  · exact Except.noConfusion h
  rename_i hincomp
  split at h
  · exact Except.noConfusion h
  split at h
  · exact Except.noConfusion h
  rename_i cs o9 heq7
  obtain ⟨ho9, hb9⟩ := read_u32_ok heq7
  subst ho9
  split at h
  · exact Except.noConfusion h
  split at h
  · exact Except.noConfusion h
  rw [Except.ok.injEq, Prod.mk.injEq] at h
  obtain ⟨-, hn⟩ := h
  subst hn
  omega

/-! ## WAL replay scan — `WalManager::replay_from` (src/wal/manager.rs:124-163) -/

/-- The record-scanning loop of `WalManager::replay_from`: starting at
byte position `pos` of the log, repeatedly `deserialize` the remaining
bytes; on success record `(absolute_offset, entry)` (the pair handed to
the replay callback) and advance by the consumed count; on any
`deserialize` failure abort the whole replay with
`WalError::ReplayError { offset, reason: e.to_string() }`.  There is no
torn-tail special case and no truncation. -/
def parseAll (data : List Nat) (pos : Nat) : Except WalError (List (Nat × WalEntry)) :=
  if _h : data = [] then .ok []
  else
    match hd : WalEntry.deserialize data with
    | .ok (e, n) =>
      match parseAll (data.drop n) (pos + n) with
      | .ok rest => .ok ((pos, e) :: rest)
      | .error err => .error err
    | .error e => .error (.replayError pos e.display)
  termination_by data.length
  decreasing_by
    have hb := deserialize_ok_bounds data e n hd
    have hpos : 0 < data.length := List.length_pos.mpr _h
    simp only [List.length_drop]
    omega

/-! ## Storage data model — `src/storage/types.rs` -/

/-- `storage::types::KvEntry`. -/
structure KvEntry where
  value : List Nat
  version : Nat
  created_at : Nat
  expires_at : Option Nat
  deriving DecidableEq

/-- `KvEntry::new` (src/storage/types.rs:12-26).  `now` is the
`SystemTime::now()` reading in Unix nanoseconds (a `u64`, so `< 2 ^ 64`).
The version is always `1`; `expires_at` is `now + ttl * 1_000_000_000` in
wrapping `u64` arithmetic when a TTL is given. -/
def KvEntry.new (value : List Nat) (ttl_secs : Option Nat) (now : Nat) : KvEntry :=
  { value := value
    version := 1
    created_at := now
    expires_at := ttl_secs.map (fun ttl => (now + ttl * 1000000000) % 2 ^ 64) }

/-- `KvEntry::is_expired`, at clock reading `now`. -/
def KvEntry.is_expired (e : KvEntry) (now : Nat) : Bool :=
  match e.expires_at with
  | some expiry => decide (now > expiry)
  | none => false

/-! ## Shard — `src/storage/shard.rs`

A shard's `HashMap<String, KvEntry>` is modelled as an association list
(key bytes × entry); an insert puts the new binding first and drops any
previous binding of the same key. -/

/-- One shard map. -/
def Shard := List (List Nat × KvEntry)

instance : DecidableEq Shard := by
  unfold Shard
  infer_instance

/-- `Shard::get` — lookup, cloning the entry. -/
def Shard.get (m : Shard) (k : List Nat) : Option KvEntry :=
  (List.find? (fun p => p.1 == k) m).map Prod.snd

/-- `Shard::set` — `HashMap::insert`, returning the previous entry. -/
def Shard.set (m : Shard) (k : List Nat) (e : KvEntry) : Shard × Option KvEntry :=
  ((k, e) :: List.filter (fun p => !(p.1 == k)) m, Shard.get m k)

/-- `Shard::del` — `HashMap::remove`, returning the removed entry. -/
def Shard.del (m : Shard) (k : List Nat) : Shard × Option KvEntry :=
  (List.filter (fun p => !(p.1 == k)) m, Shard.get m k)

/-- `Shard::snapshot` — a deep copy of the map. -/
def Shard.snapshot (m : Shard) : Shard := m

/-! ## TTL scheduler — `src/storage/ttl.rs` -/

/-- `ttl::TtlEvent`. -/
structure TtlEvent where
  key : List Nat
  expires_at : Nat
  deriving DecidableEq

/-- `BinaryHeap::push` on the min-heap of `TtlEvent`s, modelled as
insertion into a list kept sorted by ascending `expires_at` (the heap
order observed by the sweeper's peek/pop loop). -/
def ttlPush (q : List TtlEvent) (ev : TtlEvent) : List TtlEvent :=
  match q with
  | [] => [ev]
  | e :: rest => if ev.expires_at < e.expires_at then ev :: e :: rest
                 else e :: ttlPush rest ev

/-! ## Storage engine — `src/storage/engine.rs` -/

/-- `fxhash` `add_to_hash` step for the 32-bit hasher:
`hash = (hash.rotate_left(5) ^ i).wrapping_mul(0x9E3779B9)`.
Modelled from the `fxhash` crate (an external dependency of
src/storage/engine.rs). -/
def fxAdd (h i : Nat) : Nat :=
  ((((h % 2 ^ 32) * 32) % 2 ^ 32 + (h % 2 ^ 32) / 2 ^ 27) ^^^ i) * 0x9E3779B9 % 2 ^ 32

/-- `FxHasher32::write`: consume little-endian `u32` chunks while at least
four bytes remain, then a `u16` chunk, then a final byte.  Modelled from
the `fxhash` crate. -/
def fxWrite : Nat → List Nat → Nat
  | h, b0 :: b1 :: b2 :: b3 :: rest =>
      fxWrite (fxAdd h (b0 + 256 * b1 + 65536 * b2 + 16777216 * b3)) rest
  | h, [b0, b1, b2] => fxAdd (fxAdd h (b0 + 256 * b1)) b2
  | h, [b0, b1] => fxAdd h (b0 + 256 * b1)
  | h, [b0] => fxAdd h b0
  | h, [] => h

/-- `fxhash::hash32(key.as_bytes())`: the `Hash` impl for `[u8]` first
hashes the length (`write_usize`, eight little-endian bytes) and then the
bytes themselves.  Modelled from the `fxhash` crate. -/
def fxhash32 (bytes : List Nat) : Nat :=
  fxWrite (fxWrite 0 (leBytes 8 bytes.length)) bytes

/-- `storage::engine::StorageEngine` together with the queue owned by its
`TtlManager` (src/storage/ttl.rs): `shards` is the `Vec<Arc<Shard>>`,
`ttl_queue` the `BinaryHeap<TtlEvent>` behind the TTL manager. -/
structure StorageEngine where
  shards : List Shard
  ttl_queue : List TtlEvent
  deriving DecidableEq

/-- `StorageEngine::new` with `num_shards = n` (all shards empty, empty
TTL queue). -/
def StorageEngine.empty (n : Nat) : StorageEngine :=
  { shards := List.replicate n [], ttl_queue := [] }

/-- `storage::error::StorageError` (src/storage/error.rs).  The
`serialization` payload is the rendered bincode error message. -/
inductive StorageError where
  | keyNotFound (key : List Nat)
  | casFailed (key : List Nat) (expected : Nat) (got : Nat)
  | io (msg : String)
  | serialization (msg : String)
  | concurrency (msg : String)
  deriving DecidableEq

/-- `StorageEngine::get_shard`: shard index of a key,
`fxhash32(key) mod num_shards`. -/
def StorageEngine.shardIdx (eng : StorageEngine) (k : List Nat) : Nat :=
  fxhash32 k % eng.shards.length

/-- The shard holding `k` (the engine indexes `self.shards` with the hash
modulo the length, which is in bounds whenever there is at least one
shard). -/
def StorageEngine.shardOf (eng : StorageEngine) (k : List Nat) : Shard :=
  eng.shards.getD (eng.shardIdx k) []

/-- Pure read of the entry stored under `k` (the shard lookup that
`get`/`set`/`del` all start from). -/
def StorageEngine.lookup (eng : StorageEngine) (k : List Nat) : Option KvEntry :=
  Shard.get (eng.shardOf k) k

/-- `StorageEngine::get` (src/storage/engine.rs:46-57): read the shard;
a present but expired entry is removed (best effort) and reported
`KeyNotFound`; otherwise the entry is returned.  The engine state is
returned alongside because the expired-entry path mutates the shard. -/
def StorageEngine.get (eng : StorageEngine) (k : List Nat) (now : Nat) :
    Except StorageError KvEntry × StorageEngine :=
  match Shard.get (eng.shardOf k) k with
  | some entry =>
    if entry.is_expired now then
      (.error (.keyNotFound k),
       { eng with shards := eng.shards.set (eng.shardIdx k)
                    (Shard.del (eng.shardOf k) k).1 })
    else (.ok entry, eng)
  | none => (.error (.keyNotFound k), eng)

/-- `StorageEngine::set` (src/storage/engine.rs:59-83): build the entry
with `KvEntry::new` (version always 1), insert it into the shard, and if
the entry carries an expiry register `(key, expires_at)` with the TTL
manager.  Always returns `Ok(())`.  No WAL interaction of any kind. -/
def StorageEngine.set (eng : StorageEngine) (k : List Nat) (value : List Nat)
    (ttl_secs : Option Nat) (now : Nat) : Except StorageError Unit × StorageEngine :=
  let entry := KvEntry.new value ttl_secs now
  let shards' := eng.shards.set (eng.shardIdx k) (Shard.set (eng.shardOf k) k entry).1
  let queue' := match entry.expires_at with
    | some expiry => ttlPush eng.ttl_queue { key := k, expires_at := expiry }
    | none => eng.ttl_queue
  (.ok (), { shards := shards', ttl_queue := queue' })

/-- `StorageEngine::del` (src/storage/engine.rs:85-96): remove the key
from its shard; `Ok(())` if something was removed, `KeyNotFound`
otherwise.  The `_expected_version` argument is ignored by the code. -/
def StorageEngine.del (eng : StorageEngine) (k : List Nat)
    (_expected_version : Option Nat) : Except StorageError Unit × StorageEngine :=
  let (shard', old) := Shard.del (eng.shardOf k) k
  if old.isSome then
    (.ok (), { eng with shards := eng.shards.set (eng.shardIdx k) shard' })
  else
    (.error (.keyNotFound k), eng)

/-- `StorageEngine::apply_wal_entry` (src/storage/engine.rs:103-124):
dispatch on the op-code to the ordinary `set`/`del`; `Incr` and `Cas` are
currently applied as `SET`.  The record's `version` field is not
consulted, and nothing is appended to any WAL. -/
def StorageEngine.apply_wal_entry (eng : StorageEngine) (entry : WalEntry)
    (now : Nat) : Except StorageError Unit × StorageEngine :=
  match entry.op_type with
  | .set => eng.set entry.key entry.value entry.ttl now
  | .del => eng.del entry.key none
  | .incr => eng.set entry.key entry.value entry.ttl now
  | .cas => eng.set entry.key entry.value entry.ttl now

/-- `StorageEngine::snapshot` (src/storage/engine.rs:126-128): the list of
per-shard map copies, in shard index order. -/
def StorageEngine.snapshot (eng : StorageEngine) : List Shard :=
  eng.shards.map Shard.snapshot

/-- `StorageEngine::load_from_snapshot` (src/storage/engine.rs:130-137):
`assert_eq!(state.len(), self.shards.len())` — a mismatch is a panic,
modelled as `none` — then each shard's map is replaced wholesale. -/
def StorageEngine.load_from_snapshot (eng : StorageEngine) (state : List Shard) :
    Option StorageEngine :=
  if state.length = eng.shards.length then
    some { eng with shards := state }
  else
    none

/-- The replay/replication application loop: apply records in order via
`apply_wal_entry`, each at the clock reading current when it is applied;
the first error aborts the whole run (`callback(...)?` in
`WalManager::replay_from`, and the error branch of the follower loop in
src/background/replica.rs). -/
def applySeq (eng : StorageEngine) : List (WalEntry × Nat) →
    Except StorageError StorageEngine
  | [] => .ok eng
  | (e, now) :: rest =>
    match eng.apply_wal_entry e now with
    | (.ok _, eng') => applySeq eng' rest
    | (.error err, _) => .error err

/-- One pass of the background sweep loop body in
`TtlManager::start_background_task` (src/storage/ttl.rs:48-81): pop every
event whose `expires_at ≤ now` off the queue, then delete each popped key
through `StorageEngine::del`, ignoring (merely logging) failures.  The
live entry's `expires_at` is never re-checked before deleting. -/
def ttlSweep (eng : StorageEngine) (now : Nat) : StorageEngine :=
  let to_delete := (eng.ttl_queue.takeWhile (fun ev => ev.expires_at ≤ now)).map
    TtlEvent.key
  let eng' := { eng with
    ttl_queue := eng.ttl_queue.dropWhile (fun ev => ev.expires_at ≤ now) }
  to_delete.foldl (fun e k => (e.del k none).2) eng'

/-! ## WAL manager state and the client-facing paths -/

/-- The WAL manager's observable append state: the bytes of the active
log and the sync policy (src/wal/manager.rs).  `WalManager::append`
serializes the record and appends its bytes; under `EveryWrite` the bytes
are fsynced (durable) before `append` returns. -/
structure WalState where
  log : List Nat
  deriving DecidableEq

/-- `WalManager::append` (src/wal/manager.rs:94-116), ignoring rotation:
returns the offset at which the record was written. -/
def WalState.append (w : WalState) (e : WalEntry) : WalState × Nat :=
  ({ log := w.log ++ e.serialize }, w.log.length)

/-- The process-wide state relevant to the client-facing mutation paths:
the storage engine and the WAL manager created in `main` (src/main.rs).
The REST handlers receive only the engine; no WAL handle reaches any
mutation path. -/
structure SystemState where
  engine : StorageEngine
  wal : WalState
  deriving DecidableEq

/-- The REST response of a successful SET (src/api/rest/handler.rs:52-55,
"For now, version is always 1"). -/
structure SetResponse where
  success : Bool
  version : Nat
  deriving DecidableEq

/-- `set_handler` (src/api/rest/handler.rs:36-56), after authorization and
base64 decoding succeed: invoke `engine.set` and reply
`SetResponse { success: true, version: 1 }`.  The WAL is not touched:
neither the handler nor `StorageEngine::set` holds a WAL handle, so no
record is appended for the mutation on this path. -/
def set_handler (sys : SystemState) (key value : List Nat) (ttl : Option Nat)
    (now : Nat) : SystemState × Except StorageError SetResponse :=
  match sys.engine.set key value ttl now with
  | (.ok _, eng') =>
      ({ engine := eng', wal := sys.wal }, .ok { success := true, version := 1 })
  | (.error err, eng') =>
      ({ engine := eng', wal := sys.wal }, .error err)

/-- `delete_handler` (src/api/rest/handler.rs:58-70): invoke `engine.del`;
on success reply `DeleteResponse { success: true }`.  Again no WAL
interaction. -/
def delete_handler (sys : SystemState) (key : List Nat) :
    SystemState × Except StorageError Bool :=
  match sys.engine.del key none with
  | (.ok _, eng') => ({ engine := eng', wal := sys.wal }, .ok true)
  | (.error err, eng') => ({ engine := eng', wal := sys.wal }, .error err)

/-- The process-level view of the replay/replication apply step: both the
replay callback and the follower loop (src/background/replica.rs:126)
invoke `engine.apply_wal_entry`, which holds no WAL handle, so the WAL
manager's state is untouched. -/
def apply_wal_entry_sys (sys : SystemState) (e : WalEntry) (now : Nat) :
    Except StorageError Unit × SystemState :=
  match sys.engine.apply_wal_entry e now with
  | (r, eng') => (r, { engine := eng', wal := sys.wal })

/-! ## Snapshot manager — `src/storage/snapshot.rs` -/

/-- `SnapshotManager::load_snapshot` (src/storage/snapshot.rs:70-118),
taking the outcome of `bincode::deserialize` on the file bytes as input
(bincode is an external library; a decode failure carries its rendered
message).  The code performs no magic-number, format-version or header
validation of any kind: a decode failure aborts the load with a
`Serialization` error and the engine keeps its previous state; a
successful decode is handed to `load_from_snapshot`, whose shard-count
assertion panics (`none`) on mismatch. -/
def load_snapshot (eng : StorageEngine)
    (decoded : Except String (List Shard)) :
    Option (Except StorageError StorageEngine) :=
  match decoded with
  | .error e => some (.error (.serialization e))
  | .ok state => (eng.load_from_snapshot state).map .ok

/-! ## Prefix stability of the codec

`deserialize` only reads the bytes it consumes, so a successful parse of a
buffer is unchanged when more bytes are appended after it.  These lemmas
drive the analysis of the replay scan loop. -/

/-- A slice that lies inside `data` is unchanged by appending `t`. -/
theorem slice_append (data t : List Nat) (off k : Nat) (h : off + k ≤ data.length) :
    ((data ++ t).drop off).take k = (data.drop off).take k := by
  rw [List.drop_append_of_le_length (by omega)]
  rw [List.take_append_of_le_length (by rw [List.length_drop]; omega)]

/-- `read_u64` is unchanged by appending bytes after a successful read. -/
theorem read_u64_append (t : List Nat) {data : List Nat} {off v o' : Nat}
    (h : read_u64 data off = .ok (v, o')) : read_u64 (data ++ t) off = .ok (v, o') := by
  obtain ⟨ho, hb⟩ := read_u64_ok h
  unfold read_u64 at h ⊢
  rw [if_neg (by omega)] at h
  rw [List.length_append, if_neg (by omega), slice_append data t off 8 (by omega)]
  exact h

/-- `read_u32` is unchanged by appending bytes after a successful read. -/
theorem read_u32_append (t : List Nat) {data : List Nat} {off v o' : Nat}
    (h : read_u32 data off = .ok (v, o')) : read_u32 (data ++ t) off = .ok (v, o') := by
  obtain ⟨ho, hb⟩ := read_u32_ok h
  unfold read_u32 at h ⊢
  rw [if_neg (by omega)] at h
  rw [List.length_append, if_neg (by omega), slice_append data t off 4 (by omega)]
  exact h

/-- `read_u8` is unchanged by appending bytes after a successful read. -/
theorem read_u8_append (t : List Nat) {data : List Nat} {off v o' : Nat}
    (h : read_u8 data off = .ok (v, o')) : read_u8 (data ++ t) off = .ok (v, o') := by
  obtain ⟨ho, hb⟩ := read_u8_ok h
  unfold read_u8 at h ⊢
  rw [if_neg (by omega)] at h
  rw [if_neg (by rw [List.length_append]; omega)]
  rw [List.getD_append data t 0 off (by omega)]
  exact h

/-- A record parsed successfully from the front of a buffer parses to the
same record and consumed count after further bytes are appended. -/
theorem deserialize_append (data t : List Nat) (e : WalEntry) (n : Nat)
    (h : WalEntry.deserialize data = .ok (e, n)) :
    WalEntry.deserialize (data ++ t) = .ok (e, n) := by
  unfold WalEntry.deserialize at h ⊢
  split at h
  · exact Except.noConfusion h
  rename_i hlen
  rw [if_neg (by rw [List.length_append]; omega)]
  split at h
  · exact Except.noConfusion h
  rename_i v1 o1 heq1
  obtain ⟨ho1, hb1⟩ := read_u64_ok heq1
  subst ho1
  split
  · rename_i e2 heqg
    rw [read_u64_append t heq1] at heqg
    exact Except.noConfusion heqg
  rename_i v1' o1' heqg
  rw [read_u64_append t heq1, Except.ok.injEq, Prod.mk.injEq] at heqg
  obtain ⟨hv1, ho1'⟩ := heqg
  subst hv1; subst ho1'
  split at h
  · exact Except.noConfusion h
  rename_i v2 o2 heq2
  obtain ⟨ho2, hb2⟩ := read_u64_ok heq2
  subst ho2
  split
  · rename_i e2 heqg
    rw [read_u64_append t heq2] at heqg
    exact Except.noConfusion heqg
  rename_i v2' o2' heqg
  rw [read_u64_append t heq2, Except.ok.injEq, Prod.mk.injEq] at heqg
  obtain ⟨hv2, ho2'⟩ := heqg
  subst hv2; subst ho2'
  split at h
  · exact Except.noConfusion h
  rename_i v3 o3 heq3
  obtain ⟨ho3, hb3⟩ := read_u64_ok heq3
  subst ho3
  split
  · rename_i e2 heqg
    rw [read_u64_append t heq3] at heqg
    exact Except.noConfusion heqg
  rename_i v3' o3' heqg
  rw [read_u64_append t heq3, Except.ok.injEq, Prod.mk.injEq] at heqg
  obtain ⟨hv3, ho3'⟩ := heqg
  subst hv3; subst ho3'
  split at h
  · exact Except.noConfusion h
  rename_i v4 o4 heq4
  obtain ⟨ho4, hb4⟩ := read_u8_ok heq4
  subst ho4
  split
  · rename_i e2 heqg
    rw [read_u8_append t heq4] at heqg
    exact Except.noConfusion heqg
  rename_i v4' o4' heqg
  rw [read_u8_append t heq4, Except.ok.injEq, Prod.mk.injEq] at heqg
  obtain ⟨hv4, ho4'⟩ := heqg
  subst hv4; subst ho4'
  split at h
  · exact Except.noConfusion h
  rename_i v5 o5 heq5
  obtain ⟨ho5, hb5⟩ := read_u64_ok heq5
  subst ho5
  split
  · rename_i e2 heqg
    rw [read_u64_append t heq5] at heqg
    exact Except.noConfusion heqg
  rename_i v5' o5' heqg
  rw [read_u64_append t heq5, Except.ok.injEq, Prod.mk.injEq] at heqg
  obtain ⟨hv5, ho5'⟩ := heqg
  subst hv5; subst ho5'
  split at h
  · exact Except.noConfusion h
  rename_i v6 o6 heq6
  obtain ⟨ho6, hb6⟩ := read_u64_ok heq6
  subst ho6
  split
  · rename_i e2 heqg
    rw [read_u64_append t heq6] at heqg
    exact Except.noConfusion heqg
  rename_i v6' o6' heqg
  rw [read_u64_append t heq6, Except.ok.injEq, Prod.mk.injEq] at heqg
  obtain ⟨hv6, ho6'⟩ := heqg
  subst hv6; subst ho6'
  split at h
  · exact Except.noConfusion h
  rename_i hincomp
  rw [if_neg (by rw [List.length_append]; omega)]
  rw [slice_append data t _ v5 (by omega)]
  split at h
  · exact Except.noConfusion h
  rename_i hutf8
  rw [if_neg hutf8]
  split at h
  · exact Except.noConfusion h
  rename_i cs o9 heq7
  obtain ⟨ho9, hb9⟩ := read_u32_ok heq7
  subst ho9
  split
  · rename_i e2 heqg
    rw [read_u32_append t heq7] at heqg
    exact Except.noConfusion heqg
  rename_i cs' o9' heqg
  rw [read_u32_append t heq7, Except.ok.injEq, Prod.mk.injEq] at heqg
  obtain ⟨hcs, ho9'⟩ := heqg
  subst hcs; subst ho9'
  rw [List.take_append_of_le_length (by omega)]
  rw [slice_append data t _ v6 (by omega)]
  exact h

/-- A buffer whose first record fails to parse makes the scan loop abort
immediately with a `ReplayError` at the current position. -/
theorem parseAll_error_of_bad (bad : List Nat) (pos : Nat) (err : WalError)
    (hb : bad ≠ []) (hbad : WalEntry.deserialize bad = .error err) :
    parseAll bad pos = .error (.replayError pos err.display) := by
  unfold parseAll
  rw [dif_neg hb]
  split
  · rename_i e0 n0 heq
    rw [hbad] at heq
    exact Except.noConfusion heq
  · rename_i e0 heq
    rw [hbad, Except.error.injEq] at heq
    subst heq
    rfl

/-- Bounded-induction core for the replay abort theorem: if a buffer scans
cleanly, then appending any bytes whose first record fails to parse makes
the whole scan abort with a `ReplayError` positioned right after the good
records. -/
theorem parseAll_ok_append_error :
    ∀ (N : Nat) (good : List Nat), good.length ≤ N →
    ∀ (bad : List Nat) (pos : Nat) (es : List (Nat × WalEntry)) (err : WalError),
    parseAll good pos = .ok es → bad ≠ [] →
    WalEntry.deserialize bad = .error err →
    parseAll (good ++ bad) pos = .error (.replayError (pos + good.length) err.display) := by
  intro N
  induction N with
  | zero =>
    intro good hg bad pos es err _hok hb hbad
    have hnil : good = [] := List.length_eq_zero.mp (Nat.le_zero.mp hg)
    subst hnil
    simpa using parseAll_error_of_bad bad pos err hb hbad
  | succ N ih =>
    intro good hg bad pos es err hok hb hbad
    by_cases hgood : good = []
    · subst hgood
      simpa using parseAll_error_of_bad bad pos err hb hbad
    · unfold parseAll at hok
      rw [dif_neg hgood] at hok
      split at hok
      · rename_i e0 n0 heq0
        obtain ⟨hn1, hn2⟩ := deserialize_ok_bounds good e0 n0 heq0
        split at hok
        · rename_i rest0 heqr
          unfold parseAll
          rw [dif_neg (by simp [hgood])]
          split
          · rename_i e1 n1 heqg
            rw [deserialize_append good bad e0 n0 heq0, Except.ok.injEq,
              Prod.mk.injEq] at heqg
            obtain ⟨he1, hn1'⟩ := heqg
            subst he1; subst hn1'
            have hdrop : (good ++ bad).drop n0 = good.drop n0 ++ bad :=
              List.drop_append_of_le_length hn2
            rw [hdrop]
            have hlen0 : 0 < good.length := List.length_pos.mpr hgood
            have hrec := ih (good.drop n0)
              (by rw [List.length_drop]; omega) bad (pos + n0) rest0 err heqr hb hbad
            split
            · rename_i rest1 heq1
              rw [hrec] at heq1
              exact Except.noConfusion heq1
            · rename_i err1 heq1
              rw [hrec, Except.error.injEq] at heq1
              subst heq1
              rw [List.length_drop]
              have harith : pos + n0 + (good.length - n0) = pos + good.length := by omega
              rw [harith]
          · rename_i e1 heqg
            rw [deserialize_append good bad e0 n0 heq0] at heqg
            exact Except.noConfusion heqg
        · exact Except.noConfusion hok
      · exact Except.noConfusion hok

/-! ## Shard and engine lookup lemmas -/

/-- Removing a key's bindings makes lookup of that key fail. -/
theorem Shard.get_filter_self (m : Shard) (k : List Nat) :
    Shard.get (List.filter (fun p => !(p.1 == k)) m) k = none := by
  unfold Shard.get
  rw [List.find?_eq_none.mpr]
  · rfl
  · intro p hp
    have h2 := (List.mem_filter.mp hp).2
    simp only [Bool.not_eq_eq_eq_not, Bool.not_true] at h2
    simp [h2]

/-- Lookup skips a binding with a different key. -/
theorem Shard.get_cons_ne (a : List Nat × KvEntry) (rest : Shard) (k : List Nat)
    (h : (a.1 == k) = false) : Shard.get (a :: rest) k = Shard.get rest k := by
  unfold Shard.get
  rw [List.find?_cons_of_neg _ (by simp [h])]

/-- Lookup hits a binding whose key matches. -/
theorem Shard.get_cons_self (a : List Nat × KvEntry) (rest : Shard) (k : List Nat)
    (h : (a.1 == k) = true) : Shard.get (a :: rest) k = some a.2 := by
  unfold Shard.get
  rw [List.find?_cons_of_pos _ (by simpa using h)]
  rfl

/-- Removing the bindings of a different key leaves lookup unchanged. -/
theorem Shard.get_filter_ne (m : Shard) (k k' : List Nat) (h : k' ≠ k) :
    Shard.get (List.filter (fun p => !(p.1 == k)) m) k' = Shard.get m k' := by
  induction m with
  | nil => rfl
  | cons a rest ih =>
    by_cases ha : a.1 = k
    · have hfa : (!(a.1 == k)) = false := by simp [ha]
      have hk' : (a.1 == k') = false := by
        simp only [beq_eq_false_iff_ne, ne_eq]
        intro hc
        exact h (by rw [← hc, ha])
      rw [List.filter_cons, hfa, if_neg Bool.false_ne_true,
        Shard.get_cons_ne a rest k' hk']
      exact ih
    · have hfa : (!(a.1 == k)) = true := by simp [ha]
      rw [List.filter_cons, hfa, if_pos rfl]
      by_cases hk' : a.1 = k'
      · rw [Shard.get_cons_self _ _ _ (by simp [hk']),
          Shard.get_cons_self _ _ _ (by simp [hk'])]
      · rw [Shard.get_cons_ne _ _ _ (by simp [hk']),
          Shard.get_cons_ne _ _ _ (by simp [hk'])]
        exact ih

/-- Inserting a key then looking it up yields the inserted entry. -/
theorem Shard.get_set_self (m : Shard) (k : List Nat) (e : KvEntry) :
    Shard.get (Shard.set m k e).1 k = some e := by
  unfold Shard.set
  exact Shard.get_cons_self (k, e) _ k (by simp)

/-- Inserting a key leaves lookups of other keys unchanged. -/
theorem Shard.get_set_ne (m : Shard) (k k' : List Nat) (e : KvEntry) (h : k' ≠ k) :
    Shard.get (Shard.set m k e).1 k' = Shard.get m k' := by
  unfold Shard.set
  rw [Shard.get_cons_ne (k, e) _ k'
    (by simp only [beq_eq_false_iff_ne, ne_eq]; exact fun hc => h hc.symm)]
  exact Shard.get_filter_ne m k k' h

/-- Deleting a key then looking it up fails. -/
theorem Shard.get_del_self (m : Shard) (k : List Nat) :
    Shard.get (Shard.del m k).1 k = none := by
  unfold Shard.del
  exact Shard.get_filter_self m k

/-- Deleting a key leaves lookups of other keys unchanged. -/
theorem Shard.get_del_ne (m : Shard) (k k' : List Nat) (h : k' ≠ k) :
    Shard.get (Shard.del m k).1 k' = Shard.get m k' := by
  unfold Shard.del
  exact Shard.get_filter_ne m k k' h

/-- `set` leaves the number of shards unchanged. -/
theorem StorageEngine.set_shards_length (eng : StorageEngine) (k v : List Nat)
    (ttl : Option Nat) (now : Nat) :
    ((eng.set k v ttl now).2).shards.length = eng.shards.length := by
  simp [StorageEngine.set, List.length_set]

/-- `del` leaves the number of shards unchanged. -/
theorem StorageEngine.del_shards_length (eng : StorageEngine) (k : List Nat)
    (ev : Option Nat) : ((eng.del k ev).2).shards.length = eng.shards.length := by
  unfold StorageEngine.del
  split
  split
  · simp [List.length_set]
  · rfl

/-- Effect of `StorageEngine::set` on subsequent lookups: the written key
maps to the freshly constructed entry, every other key is untouched. -/
theorem StorageEngine.lookup_set (eng : StorageEngine) (k v : List Nat)
    (ttl : Option Nat) (now : Nat) (k' : List Nat) (h : 0 < eng.shards.length) :
    ((eng.set k v ttl now).2).lookup k' =
      if k' = k then some (KvEntry.new v ttl now) else eng.lookup k' := by
  unfold StorageEngine.set StorageEngine.lookup StorageEngine.shardOf
    StorageEngine.shardIdx
  simp only [List.length_set, List.getD_eq_getElem?_getD]
  by_cases hk : k' = k
  · subst hk
    rw [if_pos rfl, List.getElem?_set_self (Nat.mod_lt _ h)]
    simp only [Option.getD_some]
    exact Shard.get_set_self _ _ _
  · rw [if_neg hk]
    by_cases hi : fxhash32 k' % eng.shards.length = fxhash32 k % eng.shards.length
    · rw [hi, List.getElem?_set_self (Nat.mod_lt _ h)]
      simp only [Option.getD_some]
      exact Shard.get_set_ne _ _ _ _ hk
    · rw [List.getElem?_set_ne (fun hc => hi hc.symm)]

/-- Effect of `StorageEngine::del` on subsequent lookups: the deleted key
is gone, every other key is untouched (and deleting an absent key changes
nothing). -/
theorem StorageEngine.lookup_del (eng : StorageEngine) (k k' : List Nat)
    (h : 0 < eng.shards.length) :
    ((eng.del k none).2).lookup k' = if k' = k then none else eng.lookup k' := by
  unfold StorageEngine.del
  split
  rename_i pair shard' old heq
  unfold Shard.del at heq
  rw [Prod.mk.injEq] at heq
  obtain ⟨hsh, hold⟩ := heq
  subst hsh
  subst hold
  split
  · unfold StorageEngine.lookup StorageEngine.shardOf StorageEngine.shardIdx
    simp only [List.length_set, List.getD_eq_getElem?_getD]
    by_cases hk : k' = k
    · subst hk
      rw [if_pos rfl, List.getElem?_set_self (Nat.mod_lt _ h)]
      simp only [Option.getD_some]
      exact Shard.get_filter_self _ _
    · rw [if_neg hk]
      by_cases hi : fxhash32 k' % eng.shards.length = fxhash32 k % eng.shards.length
      · rw [hi, List.getElem?_set_self (Nat.mod_lt _ h)]
        simp only [Option.getD_some]
        have := Shard.get_filter_ne
          (eng.shards.getD (fxhash32 k % eng.shards.length) []) k k' hk
        rw [List.getD_eq_getElem?_getD] at this
        exact this
      · rw [List.getElem?_set_ne (fun hc => hi hc.symm)]
  · rename_i hnone
    by_cases hk : k' = k
    · subst hk
      rw [if_pos rfl]
      unfold StorageEngine.lookup
      simpa using hnone
    · rw [if_neg hk]

/-- Folding `del` over a list of keys removes exactly those keys. -/
theorem StorageEngine.lookup_foldl_del :
    ∀ (ks : List (List Nat)) (eng : StorageEngine), 0 < eng.shards.length →
    ∀ k, (ks.foldl (fun e kk => (e.del kk none).2) eng).lookup k =
      if ks.contains k then none else eng.lookup k := by
  intro ks
  induction ks with
  | nil =>
    intro eng h k
    simp [List.contains]
  | cons kk ks ih =>
    intro eng h k
    simp only [List.foldl_cons]
    have h' : 0 < ((eng.del kk none).2).shards.length := by
      rw [StorageEngine.del_shards_length]; exact h
    rw [ih _ h' k, StorageEngine.lookup_del eng kk k h, List.contains_cons]
    by_cases h1 : ks.contains k <;> by_cases h2 : k = kk <;>
      simp [h1, h2]

/-! ## Clock-independent projection of the engine state

`apply_wal_entry` constructs every stored entry with `KvEntry::new`, whose
`created_at`/`expires_at` come from the wall clock at apply time.  The
projection below strips exactly those two fields; replay is deterministic
with respect to it. -/

/-- The clock-independent part of a stored entry: payload and version. -/
def eraseEntry (e : KvEntry) : List Nat × Nat := (e.value, e.version)

/-- The clock-independent part of a shard. -/
def eraseShard (m : Shard) : List (List Nat × (List Nat × Nat)) :=
  m.map (fun p => (p.1, eraseEntry p.2))

/-- The clock-independent part of the sharded state (the TTL queue is not
part of the compared shard states). -/
def eraseEngine (eng : StorageEngine) : List (List (List Nat × (List Nat × Nat))) :=
  eng.shards.map eraseShard

/-- Engines with equal projections have equally many shards. -/
theorem eraseEngine_length {s1 s2 : StorageEngine}
    (h : eraseEngine s1 = eraseEngine s2) : s1.shards.length = s2.shards.length := by
  have := congrArg List.length h
  simpa [eraseEngine] using this

/-- Projection commutes with positional shard access. -/
theorem eraseShard_getD (l : List Shard) (i : Nat) :
    eraseShard (l.getD i []) = (l.map eraseShard).getD i [] := by
  rw [List.getD_eq_getElem?_getD, List.getD_eq_getElem?_getD, List.getElem?_map]
  cases l[i]? with
  | none => rfl
  | some sh => rfl

/-- Projection commutes with shard lookup. -/
theorem find?_eraseShard (m : Shard) (k : List Nat) :
    List.find? (fun p => p.1 == k) (eraseShard m) =
      Option.map (fun p => (p.1, eraseEntry p.2)) (List.find? (fun p => p.1 == k) m) := by
  unfold eraseShard
  rw [List.find?_map]
  rfl

/-- Projection commutes with the key-removal filter. -/
theorem filter_eraseShard (m : Shard) (k : List Nat) :
    List.filter (fun p => !(p.1 == k)) (eraseShard m) =
      eraseShard (List.filter (fun p => !(p.1 == k)) m) := by
  unfold eraseShard
  rw [List.filter_map]
  rfl

/-- Whether a key is present in a shard is determined by the projection. -/
theorem get_isSome_of_eraseShard {m1 m2 : Shard} (k : List Nat)
    (h : eraseShard m1 = eraseShard m2) :
    (Shard.get m1 k).isSome = (Shard.get m2 k).isSome := by
  have h2 := congrArg (List.find? (fun p => p.1 == k)) h
  rw [find?_eraseShard, find?_eraseShard] at h2
  unfold Shard.get
  cases hf1 : List.find? (fun p => p.1 == k) m1 <;>
    cases hf2 : List.find? (fun p => p.1 == k) m2 <;>
      rw [hf1, hf2] at h2 <;> simp_all

/-- Branch equation for `StorageEngine::del`. -/
theorem StorageEngine.del_eq (s : StorageEngine) (k : List Nat) (ev : Option Nat) :
    s.del k ev = if (Shard.get (s.shardOf k) k).isSome
      then (Except.ok (),
        { s with
          shards :=
            s.shards.set (s.shardIdx k)
              (List.filter (fun p => !(p.1 == k)) (s.shardOf k)) })
      else (Except.error (StorageError.keyNotFound k), s) := by
  unfold StorageEngine.del Shard.del
  rfl

/-- On a SET-like op-code, `apply_wal_entry` is `set`. -/
theorem apply_wal_entry_set_eq (s : StorageEngine) (e : WalEntry) (n : Nat)
    (hop : e.op_type = .set ∨ e.op_type = .incr ∨ e.op_type = .cas) :
    s.apply_wal_entry e n = s.set e.key e.value e.ttl n := by
  unfold StorageEngine.apply_wal_entry
  rcases hop with h1 | h1 | h1 <;> rw [h1]

/-- On a DEL op-code, `apply_wal_entry` is `del`. -/
theorem apply_wal_entry_del_eq (s : StorageEngine) (e : WalEntry) (n : Nat)
    (hop : e.op_type = .del) : s.apply_wal_entry e n = s.del e.key none := by
  unfold StorageEngine.apply_wal_entry
  rw [hop]

/-- One step of `apply_wal_entry` is deterministic up to the clock:
applied to projection-equal states at possibly different clock readings,
it returns the same result and projection-equal states. -/
theorem apply_wal_entry_congr (e : WalEntry) (n1 n2 : Nat) (s1 s2 : StorageEngine)
    (h : eraseEngine s1 = eraseEngine s2) :
    (s1.apply_wal_entry e n1).1 = (s2.apply_wal_entry e n2).1 ∧
    eraseEngine (s1.apply_wal_entry e n1).2 = eraseEngine (s2.apply_wal_entry e n2).2 := by
  have hlen : s1.shards.length = s2.shards.length := eraseEngine_length h
  have hshard : ∀ k, eraseShard (s1.shardOf k) = eraseShard (s2.shardOf k) := by
    intro k
    unfold StorageEngine.shardOf StorageEngine.shardIdx
    rw [eraseShard_getD, eraseShard_getD, hlen]
    unfold eraseEngine at h
    rw [h]
  have hx : ∀ (k : List Nat) (m : Shard),
      List.map (fun p => (p.1, eraseEntry p.2))
        (List.filter (fun p => !(p.1 == k)) m) =
      List.filter (fun p => !(p.1 == k)) (eraseShard m) :=
    fun k m => (filter_eraseShard m k).symm
  have hset : ∀ k v ttl,
      (s1.set k v ttl n1).1 = (s2.set k v ttl n2).1 ∧
      eraseEngine (s1.set k v ttl n1).2 = eraseEngine (s2.set k v ttl n2).2 := by
    intro k v ttl
    refine ⟨rfl, ?_⟩
    unfold StorageEngine.set eraseEngine
    simp only [List.map_set]
    unfold StorageEngine.shardIdx
    rw [hlen]
    unfold eraseEngine at h
    rw [h]
    have hsh : eraseShard (Shard.set (s1.shardOf k) k (KvEntry.new v ttl n1)).1 =
        eraseShard (Shard.set (s2.shardOf k) k (KvEntry.new v ttl n2)).1 := by
      unfold Shard.set eraseShard
      simp only [List.map_cons]
      rw [hx k (s1.shardOf k), hx k (s2.shardOf k), hshard k]
      rfl
    rw [hsh]
  cases hop : e.op_type with
  | set =>
    rw [apply_wal_entry_set_eq s1 e n1 (Or.inl hop),
      apply_wal_entry_set_eq s2 e n2 (Or.inl hop)]
    exact hset e.key e.value e.ttl
  | incr =>
    rw [apply_wal_entry_set_eq s1 e n1 (Or.inr (Or.inl hop)),
      apply_wal_entry_set_eq s2 e n2 (Or.inr (Or.inl hop))]
    exact hset e.key e.value e.ttl
  | cas =>
    rw [apply_wal_entry_set_eq s1 e n1 (Or.inr (Or.inr hop)),
      apply_wal_entry_set_eq s2 e n2 (Or.inr (Or.inr hop))]
    exact hset e.key e.value e.ttl
  | del =>
    rw [apply_wal_entry_del_eq s1 e n1 hop, apply_wal_entry_del_eq s2 e n2 hop,
      StorageEngine.del_eq, StorageEngine.del_eq]
    have hsome := get_isSome_of_eraseShard e.key (hshard e.key)
    by_cases hp : (Shard.get (s1.shardOf e.key) e.key).isSome
    · rw [if_pos hp, if_pos (hsome ▸ hp)]
      refine ⟨rfl, ?_⟩
      unfold eraseEngine
      simp only [List.map_set]
      unfold StorageEngine.shardIdx
      rw [hlen]
      unfold eraseEngine at h
      rw [h]
      have hsh : eraseShard (List.filter (fun p => !(p.1 == e.key)) (s1.shardOf e.key)) =
          eraseShard (List.filter (fun p => !(p.1 == e.key)) (s2.shardOf e.key)) := by
        rw [← filter_eraseShard, ← filter_eraseShard, hshard e.key]
      rw [hsh]
    · rw [if_neg hp, if_neg (hsome ▸ hp)]
      exact ⟨rfl, h⟩

/-- Whole-replay determinism up to the clock: applying the same records to
projection-equal states yields the same error behaviour and
projection-equal final states, whatever the clock read at each step. -/
theorem applySeq_congr :
    ∀ (rs1 rs2 : List (WalEntry × Nat)) (s1 s2 : StorageEngine),
    rs1.map Prod.fst = rs2.map Prod.fst → eraseEngine s1 = eraseEngine s2 →
    Except.map eraseEngine (applySeq s1 rs1) = Except.map eraseEngine (applySeq s2 rs2) := by
  intro rs1
  induction rs1 with
  | nil =>
    intro rs2 s1 s2 hmap h
    have hrs2 : rs2 = [] := by
      cases rs2 with
      | nil => rfl
      | cons q t => simp at hmap
    subst hrs2
    show (Except.ok (eraseEngine s1) : Except StorageError _) = .ok (eraseEngine s2)
    rw [h]
  | cons p rs ih =>
    intro rs2 s1 s2 hmap h
    cases rs2 with
    | nil => simp at hmap
    | cons q rs2' =>
      obtain ⟨e, n1⟩ := p
      obtain ⟨e2, n2⟩ := q
      simp only [List.map_cons, List.cons.injEq] at hmap
      obtain ⟨hpq, hrest⟩ := hmap
      subst hpq
      obtain ⟨hres, hst⟩ := apply_wal_entry_congr e n1 n2 s1 s2 h
      unfold applySeq
      rcases h1 : s1.apply_wal_entry e n1 with ⟨r1, s1'⟩
      rcases h2 : s2.apply_wal_entry e n2 with ⟨r2, s2'⟩
      rw [h1, h2] at hres hst
      simp only at hres hst
      cases r1 with
      | ok u =>
        cases r2 with
        | ok u2 => exact ih rs2' s1' s2' hrest hst
        | error err2 => exact absurd hres (by simp)
      | error err =>
        cases r2 with
        | ok u2 => exact absurd hres (by simp)
        | error err2 =>
          injection hres with h3
          rw [h3]

/-! ## Scan-loop equation lemmas and concrete inputs -/

/-- The scan loop on an empty buffer yields no records. -/
theorem parseAll_nil (pos : Nat) : parseAll [] pos = .ok [] := by
  unfold parseAll
  rfl

/-- One unfolding of the scan loop after a successful parse of the leading
record. -/
theorem parseAll_cons_ok {data : List Nat} {pos : Nat} {e : WalEntry} {n : Nat}
    (hne : data ≠ []) (hd : WalEntry.deserialize data = .ok (e, n)) :
    parseAll data pos = match parseAll (data.drop n) (pos + n) with
      | .ok rest => .ok ((pos, e) :: rest)
      | .error err => .error err := by
  nth_rewrite 1 [parseAll.eq_def]
  rw [dif_neg hne]
  split
  · rename_i e0 n0 heq
    rw [hd] at heq
    rw [Except.ok.injEq, Prod.mk.injEq] at heq
    obtain ⟨he, hn⟩ := heq
    subst he
    subst hn
    rfl
  · rename_i e0 heq
    rw [hd] at heq
    exact Except.noConfusion heq

/-- The record `entry1` of the repository's own WAL round-trip test
`test_wal_append_and_replay` (src/wal/manager.rs:197-205): key `"key1"`,
value `"value1"`, version 1, no TTL, op SET. -/
def testEntry1 : WalEntry :=
  { timestamp := 1, key := [107, 101, 121, 49], value := [118, 97, 108, 117, 101, 49],
    version := 1, ttl := none, op_type := .set }

/-- A 45-byte buffer holding exactly one record in the layout `deserialize`
accepts: an all-zero 41-byte header (op-code 0 = SET, empty key and value)
followed by the little-endian CRC-32 of that header. -/
def zeroRec : List Nat :=
  List.replicate 41 0 ++ leBytes 4 (crc32 (List.replicate 41 0))

/-- The entry `zeroRec` parses to. -/
def zeroEntry : WalEntry :=
  { timestamp := 0, key := [], value := [], version := 0, ttl := none, op_type := .set }

/-- SET record for key `"k"`, value `"v"`. -/
def setRecK : WalEntry :=
  { timestamp := 0, key := [107], value := [118], version := 1, ttl := none,
    op_type := .set }

/-- DEL record for key `"k"`. -/
def delRecK : WalEntry :=
  { timestamp := 0, key := [107], value := [], version := 1, ttl := none,
    op_type := .del }

/-- A SET record carrying stored version 5, for the replay-version claims. -/
def setRecV5 : WalEntry :=
  { timestamp := 0, key := [107], value := [118], version := 5, ttl := none,
    op_type := .set }

/-- A one-shard engine holding key `"k"` with no expiry, while the TTL
queue still holds a stale event `("k", 5)` from an earlier write. -/
def staleEngine : StorageEngine :=
  { shards := [[([107],
      { value := [118], version := 1, created_at := 0, expires_at := none })]],
    ttl_queue := [{ key := [107], expires_at := 5 }] }

/-- A process state with a one-shard engine and an empty WAL. -/
def sysEmpty1 : SystemState :=
  { engine := StorageEngine.empty 1, wal := { log := [] } }

/-! ## The claims -/

/-- C1: the claim asserts that every client-facing `set`/`del` that reports
success has first made a WAL record durable (under `EveryWrite`, before
returning).  The code violates this: the REST `set_handler` only calls
`StorageEngine::set`, which holds no WAL handle, and `WalManager::append`
has no caller on any mutation path — so for every input the handler
replies `success: true, version: 1` while the WAL byte log is unchanged,
and nothing about the mutation is durable under any sync policy. -/
theorem set_handler_success_without_wal_append (sys : SystemState)
    (key value : List Nat) (ttl : Option Nat) (now : Nat) :
    (set_handler sys key value ttl now).2 = .ok { success := true, version := 1 } ∧
    ((set_handler sys key value ttl now).1).wal = sys.wal :=
  ⟨rfl, rfl⟩

/-- C2 (counterexample): a WAL consisting of one intact record followed by
a 1-byte torn tail.  The claim says replay logs the torn tail, truncates,
and completes successfully; the code instead aborts the whole replay with
`ReplayError` at offset 45 — there is no torn-tail tolerance and no
truncation in `WalManager::replay_from`. -/
theorem replay_torn_tail_aborts :
    parseAll (zeroRec ++ [0]) 0 =
      .error (.replayError 45 "Invalid WAL entry at offset 0: too short") := by
  rw [parseAll_cons_ok (by decide)
    (by decide : WalEntry.deserialize (zeroRec ++ [0]) = .ok (zeroEntry, 45))]
  have hdrop : (zeroRec ++ [0]).drop 45 = [0] := by decide
  rw [hdrop]
  rw [parseAll_error_of_bad [0] (0 + 45) (.invalidEntry 0 "too short")
    (by decide) (by decide)]
  rfl

/-- C2 (amended): during WAL replay, any record that fails to parse —
short read or CRC mismatch, at the tail or mid-stream — is a fatal replay
error: the scan aborts with `ReplayError` at the offset of the failing
record (right after the records that parsed), and no truncation or rewind
is performed.  In particular a torn tail (a trailing fragment shorter than
the 37-byte minimum) aborts recovery exactly like mid-stream corruption. -/
theorem replay_parse_failure_is_fatal (good bad : List Nat) (pos : Nat)
    (es : List (Nat × WalEntry)) (err : WalError)
    (hok : parseAll good pos = .ok es) (hb : bad ≠ [])
    (hbad : WalEntry.deserialize bad = .error err) :
    parseAll (good ++ bad) pos =
      .error (.replayError (pos + good.length) err.display) :=
  parseAll_ok_append_error good.length good le_rfl bad pos es err hok hb hbad

/-- C2 (witness): the fatal-abort theorem applied to the concrete
one-record log with a one-byte torn tail. -/
theorem replay_parse_failure_is_fatal_witness :
    parseAll (zeroRec ++ [0]) 0 =
      .error (.replayError (0 + zeroRec.length)
        ((WalError.invalidEntry 0 "too short").display)) := by
  have h1 : parseAll zeroRec 0 = .ok [(0, zeroEntry)] := by
    rw [parseAll_cons_ok (by decide)
      (by decide : WalEntry.deserialize zeroRec = .ok (zeroEntry, 45))]
    have hdrop : zeroRec.drop 45 = [] := by decide
    rw [hdrop, parseAll_nil]
  exact replay_parse_failure_is_fatal zeroRec [0] 0 [(0, zeroEntry)]
    (.invalidEntry 0 "too short") h1 (by decide) (by decide)

/-- C3 (counterexample): `set("k","v1")` then `set("k","v2")` then
`get("k")` yields value `"v2"` with version 1, not version 2 — `set` never
increments a stored version (`KvEntry::new` always writes version 1, and
the handler comment says "For now, version is always 1"). -/
theorem set_twice_version_stays_one :
    Option.map KvEntry.version
      ((((StorageEngine.empty 4).set [107] [118, 49] none 0).2.set
          [107] [118, 50] none 1).2.lookup [107]) = some 1 ∧
    Option.map KvEntry.version
      ((((StorageEngine.empty 4).set [107] [118, 49] none 0).2.set
          [107] [118, 50] none 1).2.lookup [107]) ≠ some 2 ∧
    Option.map KvEntry.value
      ((((StorageEngine.empty 4).set [107] [118, 49] none 0).2.set
          [107] [118, 50] none 1).2.lookup [107]) = some [118, 50] := by
  refine ⟨by decide, by decide, by decide⟩

/-- C3 (amended): `set(k, v, ttl)` always succeeds and stores the entry
built by `KvEntry::new`, whose version is 1 regardless of whether an entry
already existed under `k`; overwriting replaces the value but leaves the
version at 1. -/
theorem set_stores_version_one (eng : StorageEngine) (k v : List Nat)
    (ttl : Option Nat) (now : Nat) (h : 0 < eng.shards.length) :
    (eng.set k v ttl now).1 = .ok () ∧
    ((eng.set k v ttl now).2).lookup k = some (KvEntry.new v ttl now) ∧
    Option.map KvEntry.version (((eng.set k v ttl now).2).lookup k) = some 1 := by
  refine ⟨rfl, ?_, ?_⟩
  · rw [StorageEngine.lookup_set eng k v ttl now k h, if_pos rfl]
  · rw [StorageEngine.lookup_set eng k v ttl now k h, if_pos rfl]
    rfl

/-- C3 (witness): the version-1 theorem applied at a concrete write. -/
theorem set_stores_version_one_witness :
    0 < (StorageEngine.empty 4).shards.length ∧
    Option.map KvEntry.version
      (((StorageEngine.empty 4).set [107] [118] none 7).2.lookup [107]) = some 1 :=
  ⟨by decide,
   (set_stores_version_one (StorageEngine.empty 4) [107] [118] none 7 (by decide)).2.2⟩

/-- C4 (counterexample): applying a WAL record that carries version 5
stores an entry with version 1 — `apply_wal_entry` goes through `set`,
which rebuilds the entry with `KvEntry::new` and never consults the
record's `version` field. -/
theorem apply_ignores_record_version :
    Option.map KvEntry.version
      (((StorageEngine.empty 1).apply_wal_entry setRecV5 0).2.lookup [107]) = some 1 ∧
    Option.map KvEntry.version
      (((StorageEngine.empty 1).apply_wal_entry setRecV5 0).2.lookup [107]) ≠ some 5 := by
  refine ⟨by decide, by decide⟩

/-- C4 (amended): `apply_wal_record` dispatches on the op-code to the
shard-level `set`/`del` and never appends to the WAL, but it does not
honor the record's stored version: on SET-like op-codes the entry stored
afterwards is the freshly built `KvEntry::new value ttl now` — version 1
and clock-derived timestamps — whatever version the record carries. -/
theorem apply_wal_entry_no_wal_and_fresh_version (sys : SystemState) (e : WalEntry)
    (now : Nat) (h : 0 < sys.engine.shards.length) :
    ((apply_wal_entry_sys sys e now).2).wal = sys.wal ∧
    (e.op_type = .set ∨ e.op_type = .incr ∨ e.op_type = .cas →
      ((apply_wal_entry_sys sys e now).2).engine.lookup e.key =
        some (KvEntry.new e.value e.ttl now)) := by
  constructor
  · rfl
  · intro hop
    show ((sys.engine.apply_wal_entry e now).2).lookup e.key = _
    rw [apply_wal_entry_set_eq sys.engine e now hop]
    rw [StorageEngine.lookup_set sys.engine e.key e.value e.ttl now e.key h,
      if_pos rfl]

/-- C4 (witness): the no-WAL/fresh-version theorem applied to the concrete
version-5 record. -/
theorem apply_wal_entry_no_wal_and_fresh_version_witness :
    ((apply_wal_entry_sys sysEmpty1 setRecV5 3).2).wal = sysEmpty1.wal ∧
    ((apply_wal_entry_sys sysEmpty1 setRecV5 3).2).engine.lookup [107] =
      some (KvEntry.new [118] none 3) := by
  have h := apply_wal_entry_no_wal_and_fresh_version sysEmpty1 setRecV5 3 (by decide)
  exact ⟨h.1, h.2 (Or.inl rfl)⟩

/-- C5 (counterexample): two replays of the same single-record WAL, one
run with the clock at 0 and one with the clock at 1, produce different
shard states — `apply_wal_entry` stamps `created_at` (and any
`expires_at`) with `SystemTime::now()` at apply time, so byte-identical
states are not guaranteed across runs. -/
theorem replay_states_differ_across_clock_readings :
    applySeq (StorageEngine.empty 1) [(setRecK, 0)] ≠
      applySeq (StorageEngine.empty 1) [(setRecK, 1)] := by
  decide

/-- C5 (amended): replay is deterministic up to the clock-derived fields:
two runs applying the same record sequence to initially empty engines
(same shard count) agree on error behaviour and produce shard states with
identical key sets, values and versions; only `created_at`/`expires_at`,
which are read from the wall clock at each apply, may differ, and runs
with identical clock readings produce identical states. -/
theorem replay_deterministic_up_to_clock (rs1 rs2 : List (WalEntry × Nat)) (n : Nat)
    (hmap : rs1.map Prod.fst = rs2.map Prod.fst) :
    Except.map eraseEngine (applySeq (StorageEngine.empty n) rs1) =
      Except.map eraseEngine (applySeq (StorageEngine.empty n) rs2) :=
  applySeq_congr rs1 rs2 _ _ hmap rfl

/-- C5 (witness): determinism-up-to-clock at the concrete diverging runs. -/
theorem replay_deterministic_up_to_clock_witness :
    Except.map eraseEngine (applySeq (StorageEngine.empty 1) [(setRecK, 0)]) =
      Except.map eraseEngine (applySeq (StorageEngine.empty 1) [(setRecK, 1)]) :=
  replay_deterministic_up_to_clock [(setRecK, 0)] [(setRecK, 1)] 1 rfl

/-- C6 (counterexample): loading a decoded snapshot whose shard count (1)
differs from the engine's (2) does not reject the load with an error
leaving the engine usable — it trips the `assert_eq!` in
`load_from_snapshot`, a panic (modelled `none`); and no magic number or
format version exists in the file to be validated, the file being a bare
bincode encoding of the shard vector. -/
theorem load_snapshot_shard_mismatch_panics :
    load_snapshot (StorageEngine.empty 2) (.ok [[]]) = none := by
  decide

/-- C6 (amended): the snapshot loader performs no magic-number or
format-version validation; a bincode decode failure aborts the load with a
`Serialization` error and the engine keeps its previous state; a decoded
state whose shard count matches is installed wholesale and the engine's
`snapshot()` then equals the decoded content; a shard-count mismatch
panics on the `assert_eq!` instead of returning an error. -/
theorem load_snapshot_behavior (eng : StorageEngine)
    (decoded : Except String (List Shard)) :
    (∀ msg, decoded = .error msg →
      load_snapshot eng decoded = some (.error (.serialization msg))) ∧
    (∀ st, decoded = .ok st → st.length = eng.shards.length →
      load_snapshot eng decoded = some (.ok { eng with shards := st }) ∧
      StorageEngine.snapshot { eng with shards := st } = st) ∧
    (∀ st, decoded = .ok st → st.length ≠ eng.shards.length →
      load_snapshot eng decoded = none) := by
  refine ⟨?_, ?_, ?_⟩
  · intro msg hm
    subst hm
    rfl
  · intro st hs hlen
    subst hs
    constructor
    · simp only [load_snapshot]
      unfold StorageEngine.load_from_snapshot
      rw [if_pos hlen]
      rfl
    · have hmap : ∀ (l : List Shard), List.map Shard.snapshot l = l := by
        intro l
        induction l with
        | nil => rfl
        | cons a t ih => simp [Shard.snapshot, ih]
      exact hmap st
  · intro st hs hlen
    subst hs
    simp only [load_snapshot]
    unfold StorageEngine.load_from_snapshot
    rw [if_neg hlen]
    rfl

/-- C6 (witness): the loader behaviour theorem at concrete inputs — a
matching two-shard load succeeds and round-trips through `snapshot()`, a
mismatched load panics. -/
theorem load_snapshot_behavior_witness :
    load_snapshot (StorageEngine.empty 2) (.ok [[], []]) =
      some (.ok { shards := [[], []], ttl_queue := [] }) ∧
    StorageEngine.snapshot { shards := [[], []], ttl_queue := [] } = [[], []] ∧
    load_snapshot (StorageEngine.empty 3) (.ok [[]]) = none := by
  have h2 := (load_snapshot_behavior (StorageEngine.empty 2)
    (.ok [[], []])).2.1 [[], []] rfl (by decide)
  have h3 := (load_snapshot_behavior (StorageEngine.empty 3)
    (.ok [[]])).2.2 [[]] rfl (by decide)
  exact ⟨h2.1, h2.2, h3⟩

/-- C7 (counterexample): the engine holds `"k"` with `expires_at = None`
(it was rewritten without TTL), while the TTL queue still holds the stale
event `("k", 5)`.  The claim says the sweeper re-reads the live entry and
deletes only when its `expires_at` equals the event's; the code deletes
unconditionally — at `now = 10` the sweep removes the live entry. -/
theorem ttl_sweep_deletes_stale_event_key :
    staleEngine.lookup [107] =
      some { value := [118], version := 1, created_at := 0, expires_at := none } ∧
    (ttlSweep staleEngine 10).lookup [107] = none := by
  refine ⟨by decide, by decide⟩

/-- C7 (amended): one pass of the background sweep pops every queued event
with `expires_at ≤ now` and deletes each popped key unconditionally — the
live entry's `expires_at` is never compared with the event's, so a stale
event deletes a rewritten live entry; keys without a due event are
untouched. -/
theorem ttl_sweep_deletes_all_due_events (eng : StorageEngine) (now : Nat)
    (k : List Nat) (h : 0 < eng.shards.length) :
    (ttlSweep eng now).lookup k =
      if ((eng.ttl_queue.takeWhile (fun ev => ev.expires_at ≤ now)).map
            TtlEvent.key).contains k
      then none else eng.lookup k := by
  unfold ttlSweep
  exact StorageEngine.lookup_foldl_del _
    { eng with ttl_queue := eng.ttl_queue.dropWhile (fun ev => ev.expires_at ≤ now) }
    h k

/-- C7 (witness): the sweep theorem applied to the stale-event engine. -/
theorem ttl_sweep_deletes_all_due_events_witness :
    (ttlSweep staleEngine 10).lookup [107] =
      if ((staleEngine.ttl_queue.takeWhile (fun ev => ev.expires_at ≤ 10)).map
            TtlEvent.key).contains [107]
      then none else staleEngine.lookup [107] :=
  ttl_sweep_deletes_all_due_events staleEngine 10 [107] (by decide)

/-- C8: the claim asserts `deserialize(serialize(rec)) == rec`.  The code
violates it for the repository's own test record `entry1`: `serialize`
writes every multi-byte integer big-endian (`BufMut::put_u64`/`put_u32`)
while `deserialize` reads little-endian (`u64::from_le_bytes`), so the
key length 4 is read back as `4 · 256⁷` and deserialization fails with
`InvalidEntry "incomplete data"` instead of returning the record — which
also contradicts the repository's replay test that expects appended
records to be read back. -/
theorem deserialize_serialize_fails :
    WalEntry.deserialize (WalEntry.serialize testEntry1) =
      .error (.invalidEntry 0 "incomplete data") := by
  decide

/-- C9 (counterexample): `set("k","v", ttl=0)` at clock 5 succeeds and
stores an entry with `expires_at = Some 5 = created_at` — the entry is
neither rejected nor stored without expiry, and the claimed strict
`expires_at > created_at` invariant fails. -/
theorem set_ttl_zero_stores_expiry_equal_created :
    ((StorageEngine.empty 1).set [107] [118] (some 0) 5).1 = .ok () ∧
    ((StorageEngine.empty 1).set [107] [118] (some 0) 5).2.lookup [107] =
      some { value := [118], version := 1, created_at := 5, expires_at := some 5 } := by
  refine ⟨rfl, by decide⟩

/-- C9 (amended): an entry stored by `set` with a TTL has
`created_at = now` and `expires_at = (now + ttl · 10⁹) mod 2⁶⁴` (wrapping
`u64` arithmetic); with `ttl = 0` the entry is accepted and stored with
`expires_at` equal to `created_at`, so the invariant holds only in the
non-strict form and TTL 0 is neither rejected nor treated as no-expiry. -/
theorem set_ttl_expiry_arithmetic (eng : StorageEngine) (k v : List Nat)
    (ttl now : Nat) (h : 0 < eng.shards.length) (hnow : now < 2 ^ 64) :
    ((eng.set k v (some ttl) now).2).lookup k = some (KvEntry.new v (some ttl) now) ∧
    (KvEntry.new v (some ttl) now).created_at = now ∧
    (KvEntry.new v (some ttl) now).expires_at =
      some ((now + ttl * 1000000000) % 2 ^ 64) ∧
    (ttl = 0 → (KvEntry.new v (some ttl) now).expires_at = some now) := by
  refine ⟨?_, rfl, rfl, ?_⟩
  · rw [StorageEngine.lookup_set eng k v (some ttl) now k h, if_pos rfl]
  · intro h0
    subst h0
    show some ((now + 0 * 1000000000) % 2 ^ 64) = some now
    rw [show (now + 0 * 1000000000) % 2 ^ 64 = now from by omega]

/-- C9 (witness): the expiry-arithmetic theorem at a concrete write with
TTL 3 at clock 5. -/
theorem set_ttl_expiry_arithmetic_witness :
    ((StorageEngine.empty 1).set [107] [118] (some 3) 5).2.lookup [107] =
      some (KvEntry.new [118] (some 3) 5) ∧
    (KvEntry.new ([118] : List Nat) (some 3) 5).expires_at =
      some ((5 + 3 * 1000000000) % 2 ^ 64) := by
  have h := set_ttl_expiry_arithmetic (StorageEngine.empty 1) [107] [118] 3 5
    (by decide) (by norm_num)
  exact ⟨h.1, h.2.2.1⟩

/-- C10 (counterexample): applying the same SET-then-DEL sequence twice
does not abort — each DEL finds the key present (it was just re-SET), so
the whole replay succeeds and ends with an empty shard.  The claim's
assertion that this doubled sequence aborts with an error is false. -/
theorem set_del_twice_replay_succeeds :
    applySeq (StorageEngine.empty 1)
      [(setRecK, 0), (delRecK, 0), (setRecK, 0), (delRecK, 0)] =
      .ok { shards := [[]], ttl_queue := [] } := by
  decide

/-- C10 (amended): a DEL WAL record whose key is absent makes
`apply_wal_record` return `KeyNotFound` instead of succeeding as a no-op,
and a replay that applies such a record (for example a DEL of a key that
was never set) aborts with that error; but a SET-then-DEL sequence applied
twice replays without error, since each DEL finds its key present. -/
theorem apply_del_missing_key_errors (eng : StorageEngine) (e : WalEntry) (now : Nat)
    (hop : e.op_type = .del) (habs : eng.lookup e.key = none) :
    eng.apply_wal_entry e now = (.error (.keyNotFound e.key), eng) ∧
    (∀ rest, applySeq eng ((e, now) :: rest) = .error (.keyNotFound e.key)) := by
  have h1 : eng.apply_wal_entry e now = (.error (.keyNotFound e.key), eng) := by
    rw [apply_wal_entry_del_eq eng e now hop, StorageEngine.del_eq]
    rw [if_neg (by unfold StorageEngine.lookup at habs; simp [habs])]
  refine ⟨h1, ?_⟩
  intro rest
  show (match eng.apply_wal_entry e now with
    | (.ok _, eng') => applySeq eng' rest
    | (.error err, _) => .error err) = .error (.keyNotFound e.key)
  rw [h1]

/-- C10 (witness): DEL of the never-set key `"k"` errors, and the
single-record replay of that DEL aborts with `KeyNotFound`. -/
theorem apply_del_missing_key_errors_witness :
    (StorageEngine.empty 1).apply_wal_entry delRecK 0 =
      (.error (.keyNotFound [107]), StorageEngine.empty 1) ∧
    applySeq (StorageEngine.empty 1) [(delRecK, 0)] = .error (.keyNotFound [107]) := by
  have h := apply_del_missing_key_errors (StorageEngine.empty 1) delRecK 0 rfl (by decide)
  exact ⟨h.1, h.2 []⟩
